import Mathlib

/-!
# Verification of the tool-augmented conversation orchestrator

A shallow embedding of the `/chat` request handler in `src/api.ts` and of the
`get-users` tool handler of the MCP server, together with theorems settling
the specification's claims about them.

The embedding keeps the source's control flow: the handler validates the
prompt, selects a provider, appends the user message, truncates the history
(`if (messages.length > 10) messages = [messages[0], ...messages.slice(-9)]`),
issues a completion request carrying the tool schemas, executes the requested
tool calls one at a time (skipping calls whose `type` is not `"function"`),
and, when tool calls were present, issues one follow-up completion without
tool schemas.  External effects (the two LLM completion clients, JSON parsing
of tool arguments, and the MCP `callTool` round trip) are oracles supplied in
an `Env`; fallible ones return `Except`.  Each run also produces a trace of
`Event`s recording every completion request (with whether tool schemas were
attached) and every tool dispatch, so that claims about "no network call",
request counts and ordering can be stated.
-/

namespace Compass

/-- A tool call requested by an assistant message
(`message.tool_calls[i]` in the source: `{id, type, function: {name, arguments}}`). -/
structure ToolCall where
  id : String
  ty : String
  name : String
  arguments : String
  deriving Repr, DecidableEq

/-- A chat message as stored in the `messages` array of `src/api.ts`.
`tool_calls` is `Option` because JavaScript distinguishes an absent
(`undefined`/falsy) `tool_calls` field from a present (truthy, even when
empty) array: `if (message.tool_calls)` enters the tool branch for `[]`. -/
structure Msg where
  role : String
  content : Option String
  tool_calls : Option (List ToolCall) := none
  tool_call_id : Option String := none
  deriving Repr, DecidableEq

/-- One content item of an MCP tool result (`{type, text}`). -/
structure ContentItem where
  ty : String
  text : String
  deriving Repr, DecidableEq

/-- The result of `client.callTool` (`{content, isError}`); `isError`
defaults to absent/false as in the MCP SDK. -/
structure CallToolResult where
  content : List ContentItem
  isError : Bool := false
  deriving Repr, DecidableEq

/-- A tool descriptor as returned by `client.listTools()`:
`{name, description, inputSchema}`.  The schema is kept opaque. -/
structure ToolDescriptor where
  name : String
  description : String
  inputSchema : String
  deriving Repr, DecidableEq

/-- The `function` part of a provider tool spec. -/
structure FunctionSpec where
  name : String
  description : String
  parameters : String
  deriving Repr, DecidableEq

/-- One element of `completionBody.tools` (`{type: "function", function}`). -/
structure ProviderToolSpec where
  ty : String
  function : FunctionSpec
  deriving Repr, DecidableEq

/-- The Tool Catalog Adapter: the `tools.map(...)` expression of
`src/api.ts` lines 115-122, converting each descriptor into the provider's
function-calling schema. -/
def toProviderSchema (ts : List ToolDescriptor) : List ProviderToolSpec :=
  ts.map fun tool =>
    { ty := "function"
      function :=
        { name := tool.name
          description := tool.description
          parameters := tool.inputSchema } }

/-- The body of a completion request (`{model, messages, tools?}`); the
follow-up request of lines 149-152 carries no `tools` field. -/
structure CompletionBody where
  model : String
  messages : List Msg
  tools : Option (List ProviderToolSpec) := none

/-- Opaque decoded-JSON value produced by `JSON.parse` on a tool call's
argument string; the handler only forwards it to `callTool`. -/
structure JsonArgs where
  raw : String
  deriving Repr, DecidableEq

/-- Trace events of one `/chat` run: a completion request (recording
whether tool schemas were attached) or a tool dispatch to the MCP client. -/
inductive Event where
  | completionReq (withTools : Bool)
  | toolInvoke (name : String)
  deriving Repr, DecidableEq

/-- The external collaborators of the handler: provider configuration
flags, the polymorphic completion client (first argument is the selected
provider id), `JSON.parse`, and the MCP `callTool` round trip. -/
structure Env where
  openaiConfigured : Bool
  groqConfigured : Bool
  catalog : List ToolDescriptor
  complete : String → CompletionBody → Except String Msg
  jsonParse : String → Except String JsonArgs
  callTool : String → JsonArgs → Except String CallToolResult

/-- The parsed body of a `/chat` request: `{prompt, provider = "groq", model}`. -/
structure ChatRequest where
  prompt : Option String
  provider : Option String := none
  model : Option String := none

/-- The HTTP response of one `/chat` request: `res.json({response, provider,
model})`, `res.status(400).json({error})`, or `res.status(500).json({error})`. -/
inductive Response where
  | ok (response : Option String) (provider : String) (model : String)
  | badRequest (error : String)
  | serverError (error : String)
  deriving Repr, DecidableEq

/-- The history bound of `src/api.ts` lines 108-110:
`if (messages.length > 10) { messages = [messages[0], ...messages.slice(-9)]; }`. -/
def limitHistory (ms : List Msg) : List Msg :=
  if ms.length > 10 then ms.take 1 ++ ms.drop (ms.length - 9) else ms

/-- A JSON.stringify model for tool-result content, used when the handler
pushes `{role:"tool", tool_call_id, content: JSON.stringify(result.content)}`.
Only injectivity-irrelevant shape matters for the claims; the rendering keeps
each item's type and text. -/
def stringifyContent (items : List ContentItem) : String :=
  "[" ++ String.intercalate "," (items.map fun i =>
    "\x7b\"type\":\"" ++ i.ty ++ "\",\"text\":\"" ++ i.text ++ "\"\x7d") ++ "]"

/-- The tool-execution loop of `src/api.ts` lines 130-146: for each tool
call, skip it when `toolCall.type !== "function"`, otherwise parse the
arguments, dispatch `client.callTool`, and push a tool-role message carrying
the stringified result content, correlated by `tool_call_id`.  An exception
from `JSON.parse` or `callTool` aborts the loop, surfacing the error together
with the messages and events accumulated so far. -/
def execTools (env : Env) (calls : List ToolCall) (ms : List Msg)
    (evs : List Event) : Except (List Msg × List Event × String) (List Msg × List Event) :=
  match calls with
  | [] => .ok (ms, evs)
  | c :: rest =>
    if c.ty ≠ "function" then
      execTools env rest ms evs
    else
      match env.jsonParse c.arguments with
      | .error e => .error (ms, evs, e)
      | .ok args =>
        match env.callTool c.name args with
        | .error e => .error (ms, evs ++ [.toolInvoke c.name], e)
        | .ok result =>
          execTools env rest
            (ms ++ [{ role := "tool"
                      content := some (stringifyContent result.content)
                      tool_call_id := some c.id }])
            (evs ++ [.toolInvoke c.name])

/-- ASCII model of JavaScript `String.prototype.toLowerCase`, computable in
the kernel (character-wise lowering of the code points). -/
def strToLower (s : String) : String := ⟨s.data.map Char.toLower⟩

/-- `s.startsWith(t)` on strings, via the underlying character lists. -/
def strStarts (s t : String) : Bool := t.data.isPrefixOf s.data

/-- Whether `needle` occurs as a contiguous segment of `hay`. -/
def hasSeg (hay needle : List Char) : Bool :=
  needle.isPrefixOf hay ||
    match hay with
    | [] => false
    | _ :: t => hasSeg t needle

/-- The user message pushed by `messages.push({ role: "user", content: prompt })`. -/
def userMsg (prompt : String) : Msg := { role := "user", content := some prompt }

/-- The body of the `/chat` turn after provider selection (`src/api.ts`
lines 105-168): append the user message, truncate, issue a completion with
the adapted tool schemas, and either return its content directly or run the
tool loop followed by exactly one more completion without tool schemas. -/
def runTurn (env : Env) (ms0 : List Msg) (prompt selectedProvider selectedModel : String) :
    List Msg × Response × List Event :=
  let ms1 := ms0 ++ [userMsg prompt]
  let ms2 := limitHistory ms1
  let body : CompletionBody :=
    { model := selectedModel, messages := ms2, tools := some (toProviderSchema env.catalog) }
  match env.complete selectedProvider body with
  | .error e => (ms2, .serverError e, [.completionReq true])
  | .ok message =>
    let ms3 := ms2 ++ [message]
    match message.tool_calls with
    | none => (ms3, .ok message.content selectedProvider selectedModel, [.completionReq true])
    | some calls =>
      match execTools env calls ms3 [.completionReq true] with
      | .error (ms, evs, e) => (ms, .serverError e, evs)
      | .ok (ms, evs) =>
        let body2 : CompletionBody := { model := selectedModel, messages := ms }
        match env.complete selectedProvider body2 with
        | .error e => (ms, .serverError e, evs ++ [.completionReq false])
        | .ok finalMsg =>
          (ms ++ [finalMsg],
           .ok finalMsg.content selectedProvider selectedModel,
           evs ++ [.completionReq false])

/-- The `/chat` request handler (`src/api.ts` lines 68-173): reject a
missing/empty prompt, resolve the provider (defaulting to `"groq"`,
lower-cased), reject unknown or unconfigured providers with a 400 before the
user message is appended, resolve the model default, then run the turn. -/
def chatHandler (env : Env) (ms0 : List Msg) (req : ChatRequest) :
    List Msg × Response × List Event :=
  match req.prompt with
  | none => (ms0, .badRequest "Prompt is required", [])
  | some prompt =>
    if prompt = "" then (ms0, .badRequest "Prompt is required", [])
    else
      let providerRaw := req.provider.getD "groq"
      let selectedProvider := strToLower providerRaw
      if selectedProvider = "openai" then
        if !env.openaiConfigured then
          (ms0, .badRequest "OpenAI not configured (missing API key)", [])
        else
          runTurn env ms0 prompt selectedProvider (req.model.getD "gpt-4o-mini")
      else if selectedProvider = "groq" then
        if !env.groqConfigured then
          (ms0, .badRequest "Groq not configured (missing API key)", [])
        else
          runTurn env ms0 prompt selectedProvider (req.model.getD "llama-3.1-8b-instant")
      else
        (ms0, .badRequest ("Unsupported provider: " ++ providerRaw), [])

/-- The initial conversation history (`src/api.ts` lines 61-66). -/
def initialMessages : List Msg :=
  [{ role := "system"
     content := some "You are a helpful assistant. You can use tools to manage users." }]

/-- Iterated turns: process a list of prompts in sequence, threading the
conversation history, each as a default request (provider defaulted to groq). -/
def runTurns (env : Env) (ms : List Msg) : List String → List Msg
  | [] => ms
  | p :: rest => runTurns env (chatHandler env ms { prompt := some p }).1 rest

/-- Number of tool-role messages in a history. -/
def countToolMsgs (ms : List Msg) : Nat :=
  (ms.filter fun m => m.role == "tool").length

/-- `true` when the history contains a tool-role message whose
`tool_call_id` matches no tool call of any assistant message still in the
history — i.e. the eviction separated a tool response from the assistant
message that requested it. -/
def orphanTool (ms : List Msg) : Bool :=
  ms.any fun m =>
    m.role == "tool" &&
      (match m.tool_call_id with
       | some i => !(ms.any fun a => (a.tool_calls.getD []).any fun c => c.id == i)
       | none => false)

/-- An assistant message with plain text content and no tool calls. -/
def plainAssistant : Msg := { role := "assistant", content := some "ok" }

/-- A test environment whose completion client always answers with a plain
assistant message and never requests tools. -/
def plainEnv : Env :=
  { openaiConfigured := false
    groqConfigured := true
    catalog := []
    complete := fun _ _ => .ok plainAssistant
    jsonParse := fun s => .ok ⟨s⟩
    callTool := fun _ _ => .ok { content := [⟨"text", "[]"⟩] } }

/-- A function-typed tool call with id `call-1` for `get-users`. -/
def toolCallOne : ToolCall :=
  { id := "call-1", ty := "function", name := "get-users", arguments := "\x7b\x7d" }

/-- An assistant message carrying only the tool call `call-1`. -/
def assistantWithCall : Msg :=
  { role := "assistant", content := none, tool_calls := some [toolCallOne] }

/-- A scripted environment: the very first completion of a session (history
of length 2 at request time, tools attached) requests the tool call
`call-1`; every other completion answers plainly. -/
def splitEnv : Env :=
  { plainEnv with
    complete := fun _ body =>
      if body.tools.isSome && body.messages.length == 2 then .ok assistantWithCall
      else .ok plainAssistant }

/-- A tool call whose `type` is not `"function"`. -/
def customCall : ToolCall :=
  { id := "call-x", ty := "custom", name := "get-users", arguments := "\x7b\x7d" }

/-- An assistant message carrying only the non-function-typed call. -/
def assistantCustom : Msg :=
  { role := "assistant", content := none, tool_calls := some [customCall] }

/-- An environment whose first (tools-attached) completion requests one
non-function-typed tool call. -/
def skipEnv : Env :=
  { plainEnv with
    complete := fun _ body =>
      if body.tools.isSome then .ok assistantCustom else .ok plainAssistant }

/-- Messages component of an `execTools` outcome, for stating facts common
to success and failure. -/
def exMsgs : Except (List Msg × List Event × String) (List Msg × List Event) → List Msg
  | .ok (ms, _) => ms
  | .error (ms, _, _) => ms

/-- Events component of an `execTools` outcome. -/
def exEvs : Except (List Msg × List Event × String) (List Msg × List Event) → List Event
  | .ok (_, evs) => evs
  | .error (_, evs, _) => evs

/-- Projection of a trace to its completion requests, keeping for each one
whether tool schemas were attached. -/
def completionFlags (evs : List Event) : List Bool :=
  evs.filterMap fun e =>
    match e with
    | .completionReq b => some b
    | .toolInvoke _ => none

/-! ## The `get-users` tool handler of the MCP server

A shallow embedding of the `server.registerTool("get-users", ...)` callback:
it fetches the user list over HTTP (here: an `Except` input standing for the
awaited axios call), applies the search/startsWith/role/id filters,
simplifies and paginates, and returns the payload as one text content item;
any thrown error is caught and turned into
`{content: [Error fetching users: ...], isError: true}`. -/

/-- A raw user object as returned by the remote user API; absent fields are
`none` (JavaScript `undefined`), and falsy empty strings are kept as data. -/
structure RawUser where
  id : String
  displayName : Option String := none
  userName : Option String := none
  name : Option String := none
  email : Option String := none
  emailAddress : Option String := none
  detailEmail : Option String := none
  role : Option String := none
  deriving Repr, DecidableEq

/-- An axios error: its `message` and the optional `response.data`
(kept as its already-serialized JSON text). -/
structure AxiosError where
  message : String
  responseData : Option String := none
  deriving Repr, DecidableEq

/-- The simplified user shape built to save tokens. -/
structure SimplifiedUser where
  id : String
  name : Option String
  email : String
  role : Option String
  deriving Repr, DecidableEq

/-- Arguments of `get-users`, with the source's defaults
(`limit = 50`, `offset = 0`). -/
structure GetUsersArgs where
  limit : Nat := 50
  offset : Nat := 0
  search : Option String := none
  startsWith : Option String := none
  role : Option String := none
  id : Option String := none
  deriving Repr, DecidableEq

/-- JavaScript string truthiness: `undefined` and `""` are falsy. -/
def truthy : Option String → Option String
  | some s => if s = "" then none else some s
  | none => none

/-- `a.includes(b)` on strings. -/
def strIncludes (s t : String) : Bool := hasSeg s.data t.data

/-- `value && value.toLowerCase().includes(term)` as used in the search filter. -/
def optIncludes (v : Option String) (term : String) : Bool :=
  match truthy v with
  | some s => strIncludes (strToLower s) term
  | none => false

/-- `value && value.toLowerCase().startsWith(term)` as used in the
startsWith filter. -/
def optStarts (v : Option String) (term : String) : Bool :=
  match truthy v with
  | some s => strStarts (strToLower s) term
  | none => false

/-- JavaScript `a || b` on optional strings: first truthy operand. -/
def orElseStr (a b : Option String) : Option String :=
  match truthy a with
  | some s => some s
  | none => truthy b

/-- A rendering of `JSON.stringify({total, count, users}, null, 2)`;
the exact text is opaque to every claim, so a compact faithful encoding of
the three fields is used. -/
def renderUsersPayload (total count : Nat) (users : List SimplifiedUser) : String :=
  "\x7b\"total\":" ++ toString total ++ ",\"count\":" ++ toString count ++
    ",\"users\":[" ++ String.intercalate ","
      (users.map fun u =>
        "\x7b\"id\":\"" ++ u.id ++ "\",\"name\":\"" ++ (u.name.getD "") ++
          "\",\"email\":\"" ++ u.email ++ "\",\"role\":\"" ++ (u.role.getD "") ++ "\"\x7d") ++
    "]\x7d"

/-- The diagnostic text of the catch branch:
`Error fetching users: ${error.message} - ${JSON.stringify(error.response?.data || "")}`. -/
def getUsersDiagnostic (e : AxiosError) : String :=
  "Error fetching users: " ++ e.message ++ " - " ++
    (match e.responseData with
     | some d => d
     | none => "\"\"")

/-- The `get-users` handler body: the `fetch` argument stands for the
awaited `axios.get` call (`.error` when it throws). -/
def getUsers (fetch : Except AxiosError (List RawUser)) (args : GetUsersArgs) :
    CallToolResult :=
  match fetch with
  | .error e =>
    { content := [{ ty := "text", text := getUsersDiagnostic e }]
      isError := true }
  | .ok allUsers0 =>
    let step1 : List RawUser :=
      match truthy args.search with
      | some s =>
        let term := strToLower s
        allUsers0.filter fun u =>
          (optIncludes u.displayName term || optIncludes u.userName term ||
            optIncludes u.name term) ||
          (optIncludes u.email term || optIncludes u.emailAddress term ||
            optIncludes u.detailEmail term)
      | none => allUsers0
    let step2 : List RawUser :=
      match truthy args.startsWith with
      | some s =>
        let term := strToLower s
        step1.filter fun u =>
          optStarts u.displayName term || optStarts u.userName term ||
            optStarts u.name term
      | none => step1
    let step3 : List RawUser :=
      match truthy args.role with
      | some r =>
        let roleTerm := strToLower r
        step2.filter fun u =>
          match truthy u.role with
          | some ur => strToLower ur == roleTerm
          | none => false
      | none => step2
    let step4 : List RawUser :=
      match truthy args.id with
      | some i => step3.filter fun u => u.id == i
      | none => step3
    let simplifiedUsers : List SimplifiedUser := step4.map fun u =>
      let rawEmail := (orElseStr u.detailEmail (orElseStr u.email u.emailAddress)).getD ""
      { id := u.id
        name := orElseStr u.displayName (orElseStr u.userName u.name)
        email := (rawEmail.splitOn "_").headD ""
        role := u.role : SimplifiedUser }
    let pagedUsers := (simplifiedUsers.drop args.offset).take args.limit
    { content := [{ ty := "text"
                    text := renderUsersPayload simplifiedUsers.length pagedUsers.length
                      pagedUsers }]
      isError := false }

/-- The tool-role message the loop pushes for call `c` when the argument
parser and the MCP client are the (total) functions `par` and `ctr`. -/
def toolResponseMsg (par : String → JsonArgs) (ctr : String → JsonArgs → CallToolResult)
    (c : ToolCall) : Msg :=
  { role := "tool"
    content := some (stringifyContent (ctr c.name (par c.arguments)).content)
    tool_call_id := some c.id }

/-- An assistant message that carries tool calls, used as a scripted
follow-up completion answer (content `null`, still requesting `call-1`). -/
def finalWithCalls : Msg :=
  { role := "assistant", content := none, tool_calls := some [toolCallOne] }

/-- An environment whose tools-attached completions request `call-1` and
whose schema-free completions answer plainly. -/
def toolTurnEnv : Env :=
  { plainEnv with
    complete := fun _ body =>
      if body.tools.isSome then .ok assistantWithCall else .ok plainAssistant }

/-- An environment whose follow-up (schema-free) completion still requests
tool calls and carries no content. -/
def followupEnv : Env :=
  { plainEnv with
    complete := fun _ body =>
      if body.tools.isSome then .ok assistantWithCall else .ok finalWithCalls }

/-- The in-band failure result produced by a tool whose backend call threw. -/
def errResult : CallToolResult :=
  { content := [{ ty := "text", text := getUsersDiagnostic { message := "boom" } }]
    isError := true }

/-- An environment whose MCP client returns an `isError` tool result
(the tool caught its own failure) instead of throwing. -/
def errorToolEnv : Env :=
  { toolTurnEnv with callTool := fun _ _ => .ok errResult }

/-- An environment whose completion client always throws. -/
def failCompleteEnv : Env :=
  { plainEnv with complete := fun _ _ => .error "llm down" }

/-- An environment whose MCP `callTool` round trip always throws. -/
def failToolEnv : Env :=
  { toolTurnEnv with callTool := fun _ _ => .error "mcp down" }

/-! ## Basic lemmas about the conversation window and the tool loop -/

theorem head?_append_left {α : Type} (a b : List α) (h : a ≠ []) :
    (a ++ b).head? = a.head? := by
  cases a with
  | nil => simp at h
  | cons x t => simp

theorem limitHistory_length (ms : List Msg) :
    (limitHistory ms).length = if ms.length > 10 then 10 else ms.length := by
  unfold limitHistory
  by_cases h : ms.length > 10
  · simp only [h, if_true, List.length_append, List.length_take, List.length_drop]
    omega
  · simp [h]

theorem limitHistory_ne_nil (ms : List Msg) (h : ms ≠ []) : limitHistory ms ≠ [] := by
  have hl := limitHistory_length ms
  intro hc
  rw [hc] at hl
  simp only [List.length_nil] at hl
  have : 0 < ms.length := List.length_pos.mpr h
  by_cases h10 : ms.length > 10
  · simp [h10] at hl
  · simp [h10] at hl; omega

theorem limitHistory_head (ms : List Msg) (h : ms ≠ []) :
    (limitHistory ms).head? = ms.head? := by
  unfold limitHistory
  by_cases hl : ms.length > 10
  · simp only [hl, if_true]
    cases ms with
    | nil => simp at h
    | cons a t => simp
  · simp [hl]

theorem execTools_extends (env : Env) (calls : List ToolCall) :
    ∀ ms evs, ∃ t u,
      exMsgs (execTools env calls ms evs) = ms ++ t ∧
      exEvs (execTools env calls ms evs) = evs ++ u ∧
      completionFlags u = [] := by
  induction calls with
  | nil =>
    intro ms evs
    exact ⟨[], [], by simp [execTools, exMsgs], by simp [execTools, exEvs], rfl⟩
  | cons c rest ih =>
    intro ms evs
    by_cases hty : c.ty = "function"
    · cases hp : env.jsonParse c.arguments with
      | error e =>
        have hstep : execTools env (c :: rest) ms evs = .error (ms, evs, e) := by
          simp [execTools, hty, hp]
        exact ⟨[], [], by simp [hstep, exMsgs], by simp [hstep, exEvs], rfl⟩
      | ok args =>
        cases hc : env.callTool c.name args with
        | error e =>
          have hstep : execTools env (c :: rest) ms evs =
              .error (ms, evs ++ [Event.toolInvoke c.name], e) := by
            simp [execTools, hty, hp, hc]
          exact ⟨[], [Event.toolInvoke c.name], by simp [hstep, exMsgs],
            by simp [hstep, exEvs], by simp [completionFlags]⟩
        | ok result =>
          have hstep : execTools env (c :: rest) ms evs =
              execTools env rest
                (ms ++ [{ role := "tool"
                          content := some (stringifyContent result.content)
                          tool_call_id := some c.id }])
                (evs ++ [Event.toolInvoke c.name]) := by
            simp [execTools, hty, hp, hc]
          obtain ⟨t, u, h1, h2, h3⟩ := ih
            (ms ++ [{ role := "tool"
                      content := some (stringifyContent result.content)
                      tool_call_id := some c.id }])
            (evs ++ [Event.toolInvoke c.name])
          refine ⟨{ role := "tool"
                    content := some (stringifyContent result.content)
                    tool_call_id := some c.id } :: t,
                  Event.toolInvoke c.name :: u, ?_, ?_, ?_⟩
          · rw [hstep, h1]; simp
          · rw [hstep, h2]; simp
          · simpa [completionFlags] using h3
    · have hstep : execTools env (c :: rest) ms evs = execTools env rest ms evs := by
        simp only [execTools]
        rw [if_pos hty]
      rw [hstep]
      exact ih ms evs

theorem execTools_filter_eq (env : Env) (calls : List ToolCall) :
    ∀ ms evs, execTools env calls ms evs =
      execTools env (calls.filter fun c => c.ty == "function") ms evs := by
  induction calls with
  | nil => intro ms evs; rfl
  | cons c rest ih =>
    intro ms evs
    by_cases hty : c.ty = "function"
    · rw [List.filter_cons_of_pos (by simpa using hty)]
      cases hp : env.jsonParse c.arguments with
      | error e =>
        have h1 : execTools env (c :: rest) ms evs = .error (ms, evs, e) := by
          simp [execTools, hty, hp]
        have h2 : execTools env (c :: rest.filter fun c => c.ty == "function") ms evs =
            .error (ms, evs, e) := by
          simp [execTools, hty, hp]
        rw [h1, h2]
      | ok args =>
        cases hc : env.callTool c.name args with
        | error e =>
          have h1 : execTools env (c :: rest) ms evs =
              .error (ms, evs ++ [Event.toolInvoke c.name], e) := by
            simp [execTools, hty, hp, hc]
          have h2 : execTools env (c :: rest.filter fun c => c.ty == "function") ms evs =
              .error (ms, evs ++ [Event.toolInvoke c.name], e) := by
            simp [execTools, hty, hp, hc]
          rw [h1, h2]
        | ok result =>
          have h1 : execTools env (c :: rest) ms evs =
              execTools env rest
                (ms ++ [{ role := "tool"
                          content := some (stringifyContent result.content)
                          tool_call_id := some c.id }])
                (evs ++ [Event.toolInvoke c.name]) := by
            simp [execTools, hty, hp, hc]
          have h2 : execTools env (c :: rest.filter fun c => c.ty == "function") ms evs =
              execTools env (rest.filter fun c => c.ty == "function")
                (ms ++ [{ role := "tool"
                          content := some (stringifyContent result.content)
                          tool_call_id := some c.id }])
                (evs ++ [Event.toolInvoke c.name]) := by
            simp [execTools, hty, hp, hc]
          rw [h1, h2]
          exact ih _ _
    · rw [List.filter_cons_of_neg (by simpa using hty)]
      have hstep : execTools env (c :: rest) ms evs = execTools env rest ms evs := by
        simp only [execTools]
        rw [if_pos hty]
      rw [hstep]
      exact ih ms evs

theorem execTools_success (env : Env)
    (hparse : ∀ s, ∃ a, env.jsonParse s = .ok a)
    (hcall : ∀ n a, ∃ r, env.callTool n a = .ok r) (calls : List ToolCall) :
    ∀ ms evs, ∃ tms,
      execTools env calls ms evs =
        .ok (ms ++ tms,
             evs ++ (calls.filter fun c => c.ty == "function").map
               fun c => Event.toolInvoke c.name) ∧
      tms.map (fun m => m.tool_call_id) =
        (calls.filter fun c => c.ty == "function").map (fun c => some c.id) ∧
      ∀ m ∈ tms, m.role = "tool" := by
  induction calls with
  | nil =>
    intro ms evs
    exact ⟨[], by simp [execTools], by simp, by simp⟩
  | cons c rest ih =>
    intro ms evs
    by_cases hty : c.ty = "function"
    · obtain ⟨args, hp⟩ := hparse c.arguments
      obtain ⟨result, hc⟩ := hcall c.name args
      have hstep : execTools env (c :: rest) ms evs =
          execTools env rest
            (ms ++ [{ role := "tool"
                      content := some (stringifyContent result.content)
                      tool_call_id := some c.id }])
            (evs ++ [Event.toolInvoke c.name]) := by
        simp [execTools, hty, hp, hc]
      obtain ⟨tms, h1, h2, h3⟩ := ih
        (ms ++ [{ role := "tool"
                  content := some (stringifyContent result.content)
                  tool_call_id := some c.id }])
        (evs ++ [Event.toolInvoke c.name])
      refine ⟨{ role := "tool"
                content := some (stringifyContent result.content)
                tool_call_id := some c.id } :: tms, ?_, ?_, ?_⟩
      · rw [hstep, h1, List.filter_cons_of_pos (by simpa using hty)]
        simp
      · rw [List.filter_cons_of_pos (by simpa using hty)]
        simpa using h2
      · intro m hm
        rcases List.mem_cons.mp hm with h | h
        · rw [h]
        · exact h3 m h
    · have hstep : execTools env (c :: rest) ms evs = execTools env rest ms evs := by
        simp only [execTools]
        rw [if_pos hty]
      obtain ⟨tms, h1, h2, h3⟩ := ih ms evs
      refine ⟨tms, ?_, ?_, h3⟩
      · rw [hstep, h1, List.filter_cons_of_neg (by simpa using hty)]
      · rw [List.filter_cons_of_neg (by simpa using hty)]
        exact h2

/-! ## Shape lemmas for one `/chat` turn -/

theorem runTurn_msgs_shape (env : Env) (ms0 : List Msg) (prompt prov model : String) :
    ∃ t, (runTurn env ms0 prompt prov model).1 =
      limitHistory (ms0 ++ [userMsg prompt]) ++ t := by
  cases hc : env.complete prov
      { model := model, messages := limitHistory (ms0 ++ [userMsg prompt]),
        tools := some (toProviderSchema env.catalog) } with
  | error e =>
    have hstep : runTurn env ms0 prompt prov model =
        (limitHistory (ms0 ++ [userMsg prompt]), .serverError e, [.completionReq true]) := by
      simp [runTurn, hc]
    exact ⟨[], by rw [hstep]; simp⟩
  | ok message =>
    cases hcalls : message.tool_calls with
    | none =>
      have hstep : runTurn env ms0 prompt prov model =
          (limitHistory (ms0 ++ [userMsg prompt]) ++ [message],
           .ok message.content prov model, [.completionReq true]) := by
        simp [runTurn, hc, hcalls]
      exact ⟨[message], by rw [hstep]⟩
    | some calls =>
      obtain ⟨t, u, hm, he, hf⟩ := execTools_extends env calls
        (limitHistory (ms0 ++ [userMsg prompt]) ++ [message]) [Event.completionReq true]
      cases hx : execTools env calls
          (limitHistory (ms0 ++ [userMsg prompt]) ++ [message]) [Event.completionReq true] with
      | error r =>
        rcases r with ⟨ms, evs, e⟩
        rw [hx] at hm
        simp only [exMsgs] at hm
        have hstep : runTurn env ms0 prompt prov model = (ms, .serverError e, evs) := by
          simp [runTurn, hc, hcalls, hx]
        refine ⟨message :: t, ?_⟩
        rw [hstep]
        simpa using hm
      | ok r =>
        rcases r with ⟨ms, evs⟩
        rw [hx] at hm
        simp only [exMsgs] at hm
        cases hc2 : env.complete prov { model := model, messages := ms } with
        | error e =>
          have hstep : runTurn env ms0 prompt prov model =
              (ms, .serverError e, evs ++ [.completionReq false]) := by
            simp [runTurn, hc, hcalls, hx, hc2]
          refine ⟨message :: t, ?_⟩
          rw [hstep]
          simpa using hm
        | ok finalMsg =>
          have hstep : runTurn env ms0 prompt prov model =
              (ms ++ [finalMsg], .ok finalMsg.content prov model,
               evs ++ [.completionReq false]) := by
            simp [runTurn, hc, hcalls, hx, hc2]
          refine ⟨message :: (t ++ [finalMsg]), ?_⟩
          rw [hstep]
          simp only [hm]
          simp

theorem runTurn_flags (env : Env) (ms0 : List Msg) (prompt prov model : String) :
    completionFlags (runTurn env ms0 prompt prov model).2.2 = [true] ∨
    completionFlags (runTurn env ms0 prompt prov model).2.2 = [true, false] := by
  have hnil : ∀ u : List Event, completionFlags u = [] →
      completionFlags ([Event.completionReq true] ++ u) = [true] := by
    intro u hu
    simp only [completionFlags, List.filterMap_append] at hu ⊢
    rw [hu]
    rfl
  cases hc : env.complete prov
      { model := model, messages := limitHistory (ms0 ++ [userMsg prompt]),
        tools := some (toProviderSchema env.catalog) } with
  | error e =>
    have hstep : runTurn env ms0 prompt prov model =
        (limitHistory (ms0 ++ [userMsg prompt]), .serverError e, [.completionReq true]) := by
      simp [runTurn, hc]
    left; rw [hstep]; rfl
  | ok message =>
    cases hcalls : message.tool_calls with
    | none =>
      have hstep : runTurn env ms0 prompt prov model =
          (limitHistory (ms0 ++ [userMsg prompt]) ++ [message],
           .ok message.content prov model, [.completionReq true]) := by
        simp [runTurn, hc, hcalls]
      left; rw [hstep]; rfl
    | some calls =>
      obtain ⟨t, u, hm, he, hf⟩ := execTools_extends env calls
        (limitHistory (ms0 ++ [userMsg prompt]) ++ [message]) [Event.completionReq true]
      cases hx : execTools env calls
          (limitHistory (ms0 ++ [userMsg prompt]) ++ [message]) [Event.completionReq true] with
      | error r =>
        rcases r with ⟨ms, evs, e⟩
        rw [hx] at he
        simp only [exEvs] at he
        have hstep : runTurn env ms0 prompt prov model = (ms, .serverError e, evs) := by
          simp [runTurn, hc, hcalls, hx]
        left
        rw [hstep]
        simp only []
        rw [he]
        exact hnil u hf
      | ok r =>
        rcases r with ⟨ms, evs⟩
        rw [hx] at he
        simp only [exEvs] at he
        have hflags : completionFlags (evs ++ [Event.completionReq false]) = [true, false] := by
          rw [he]
          simp only [completionFlags, List.filterMap_append] at hf ⊢
          rw [hf]
          rfl
        cases hc2 : env.complete prov { model := model, messages := ms } with
        | error e =>
          have hstep : runTurn env ms0 prompt prov model =
              (ms, .serverError e, evs ++ [.completionReq false]) := by
            simp [runTurn, hc, hcalls, hx, hc2]
          right; rw [hstep]; exact hflags
        | ok finalMsg =>
          have hstep : runTurn env ms0 prompt prov model =
              (ms ++ [finalMsg], .ok finalMsg.content prov model,
               evs ++ [.completionReq false]) := by
            simp [runTurn, hc, hcalls, hx, hc2]
          right; rw [hstep]; exact hflags

theorem runTurn_head (env : Env) (ms0 : List Msg) (prompt prov model : String)
    (h : ms0 ≠ []) :
    ((runTurn env ms0 prompt prov model).1).head? = ms0.head? := by
  obtain ⟨t, ht⟩ := runTurn_msgs_shape env ms0 prompt prov model
  rw [ht, head?_append_left _ _ (limitHistory_ne_nil _ (by simp)),
      limitHistory_head _ (by simp), head?_append_left _ _ h]

theorem runTurn_plain (env : Env) (ms0 : List Msg) (prompt prov model : String) (amsg : Msg)
    (hfirst : ∀ b : CompletionBody, b.tools.isSome = true → env.complete prov b = .ok amsg)
    (hnone : amsg.tool_calls = none) :
    runTurn env ms0 prompt prov model =
      (limitHistory (ms0 ++ [userMsg prompt]) ++ [amsg],
       .ok amsg.content prov model, [.completionReq true]) := by
  have hb1 := hfirst
    { model := model, messages := limitHistory (ms0 ++ [userMsg prompt])
      tools := some (toProviderSchema env.catalog) } rfl
  simp [runTurn, hb1, hnone]

theorem runTurn_spec (env : Env) (ms0 : List Msg) (prompt prov model : String)
    (amsg fm : Msg) (calls : List ToolCall)
    (hfirst : ∀ b : CompletionBody, b.tools.isSome = true → env.complete prov b = .ok amsg)
    (hcalls : amsg.tool_calls = some calls)
    (hparse : ∀ s, ∃ a, env.jsonParse s = .ok a)
    (hcall : ∀ n a, ∃ r, env.callTool n a = .ok r)
    (hfollow : ∀ b : CompletionBody, b.tools = none → env.complete prov b = .ok fm) :
    ∃ tms,
      runTurn env ms0 prompt prov model =
        (limitHistory (ms0 ++ [userMsg prompt]) ++ [amsg] ++ tms ++ [fm],
         .ok fm.content prov model,
         .completionReq true ::
           (((calls.filter fun c => c.ty == "function").map fun c => Event.toolInvoke c.name)
             ++ [.completionReq false])) ∧
      tms.map (fun m => m.tool_call_id) =
        (calls.filter fun c => c.ty == "function").map (fun c => some c.id) ∧
      ∀ m ∈ tms, m.role = "tool" := by
  obtain ⟨tms, hx, h2, h3⟩ := execTools_success env hparse hcall calls
    (limitHistory (ms0 ++ [userMsg prompt]) ++ [amsg]) [Event.completionReq true]
  have hb1 := hfirst
    { model := model, messages := limitHistory (ms0 ++ [userMsg prompt])
      tools := some (toProviderSchema env.catalog) } rfl
  have hb2 := hfollow
    { model := model
      messages := limitHistory (ms0 ++ [userMsg prompt]) ++ amsg :: tms } rfl
  refine ⟨tms, ?_, h2, h3⟩
  simp [runTurn, hb1, hcalls, hx, hb2]

theorem runTurn_completeFail (env : Env) (ms0 : List Msg) (prompt prov model e : String)
    (hfail : ∀ b : CompletionBody, b.tools.isSome = true → env.complete prov b = .error e) :
    runTurn env ms0 prompt prov model =
      (limitHistory (ms0 ++ [userMsg prompt]), .serverError e, [.completionReq true]) := by
  have hb1 := hfail
    { model := model, messages := limitHistory (ms0 ++ [userMsg prompt])
      tools := some (toProviderSchema env.catalog) } rfl
  simp [runTurn, hb1]

theorem runTurn_toolFail (env : Env) (ms0 : List Msg) (prompt prov model e : String)
    (amsg : Msg) (c : ToolCall) (rest : List ToolCall)
    (hfirst : ∀ b : CompletionBody, b.tools.isSome = true → env.complete prov b = .ok amsg)
    (hcalls : amsg.tool_calls = some (c :: rest))
    (hcty : c.ty = "function")
    (hparse : ∀ s, ∃ a, env.jsonParse s = .ok a)
    (hfail : ∀ n a, env.callTool n a = .error e) :
    runTurn env ms0 prompt prov model =
      (limitHistory (ms0 ++ [userMsg prompt]) ++ [amsg], .serverError e,
       [.completionReq true, .toolInvoke c.name]) := by
  have hb1 := hfirst
    { model := model, messages := limitHistory (ms0 ++ [userMsg prompt])
      tools := some (toProviderSchema env.catalog) } rfl
  obtain ⟨args, hp⟩ := hparse c.arguments
  have hstep : execTools env (c :: rest)
      (limitHistory (ms0 ++ [userMsg prompt]) ++ [amsg]) [Event.completionReq true] =
      .error (limitHistory (ms0 ++ [userMsg prompt]) ++ [amsg],
              [Event.completionReq true, Event.toolInvoke c.name], e) := by
    simp [execTools, hcty, hp, hfail]
  simp [runTurn, hb1, hcalls, hstep]

/-! ## Provider selection in the `/chat` handler -/

theorem chatHandler_noPrompt (env : Env) (ms0 : List Msg)
    (prov? model? : Option String) :
    chatHandler env ms0 { prompt := none, provider := prov?, model := model? } =
      (ms0, .badRequest "Prompt is required", []) ∧
    chatHandler env ms0 { prompt := some "", provider := prov?, model := model? } =
      (ms0, .badRequest "Prompt is required", []) := by
  constructor
  · rfl
  · simp [chatHandler]

theorem chatHandler_reject_unknown (env : Env) (ms0 : List Msg) (prompt : String)
    (prov? model? : Option String) (hne : prompt ≠ "")
    (h1 : strToLower (prov?.getD "groq") ≠ "openai")
    (h2 : strToLower (prov?.getD "groq") ≠ "groq") :
    chatHandler env ms0 { prompt := some prompt, provider := prov?, model := model? } =
      (ms0, .badRequest ("Unsupported provider: " ++ prov?.getD "groq"), []) := by
  simp [chatHandler, hne, h1, h2]

theorem chatHandler_reject_openai (env : Env) (ms0 : List Msg) (prompt : String)
    (prov? model? : Option String) (hne : prompt ≠ "")
    (h1 : strToLower (prov?.getD "groq") = "openai")
    (hcfg : env.openaiConfigured = false) :
    chatHandler env ms0 { prompt := some prompt, provider := prov?, model := model? } =
      (ms0, .badRequest "OpenAI not configured (missing API key)", []) := by
  simp [chatHandler, hne, h1, hcfg]

theorem chatHandler_reject_groq (env : Env) (ms0 : List Msg) (prompt : String)
    (prov? model? : Option String) (hne : prompt ≠ "")
    (h1 : strToLower (prov?.getD "groq") = "groq")
    (hcfg : env.groqConfigured = false) :
    chatHandler env ms0 { prompt := some prompt, provider := prov?, model := model? } =
      (ms0, .badRequest "Groq not configured (missing API key)", []) := by
  have hno : strToLower (prov?.getD "groq") ≠ "openai" := by
    rw [h1]; decide
  simp [chatHandler, hne, h1, hno, hcfg]

theorem chatHandler_openai_turn (env : Env) (ms0 : List Msg) (prompt : String)
    (prov? model? : Option String) (hne : prompt ≠ "")
    (h1 : strToLower (prov?.getD "groq") = "openai")
    (hcfg : env.openaiConfigured = true) :
    chatHandler env ms0 { prompt := some prompt, provider := prov?, model := model? } =
      runTurn env ms0 prompt "openai" (model?.getD "gpt-4o-mini") := by
  simp [chatHandler, hne, h1, hcfg]

theorem chatHandler_groq_turn (env : Env) (ms0 : List Msg) (prompt : String)
    (prov? model? : Option String) (hne : prompt ≠ "")
    (h1 : strToLower (prov?.getD "groq") = "groq")
    (hcfg : env.groqConfigured = true) :
    chatHandler env ms0 { prompt := some prompt, provider := prov?, model := model? } =
      runTurn env ms0 prompt "groq" (model?.getD "llama-3.1-8b-instant") := by
  have hno : strToLower (prov?.getD "groq") ≠ "openai" := by
    rw [h1]; decide
  simp [chatHandler, hne, h1, hno, hcfg]

theorem chatHandler_default_turn (env : Env) (ms0 : List Msg) (prompt : String)
    (model? : Option String) (hne : prompt ≠ "") (hcfg : env.groqConfigured = true) :
    chatHandler env ms0 { prompt := some prompt, provider := none, model := model? } =
      runTurn env ms0 prompt "groq" (model?.getD "llama-3.1-8b-instant") := by
  exact chatHandler_groq_turn env ms0 prompt none model? hne (by decide) hcfg

theorem chatHandler_head (env : Env) (ms0 : List Msg) (req : ChatRequest)
    (h : ms0 ≠ []) : ((chatHandler env ms0 req).1).head? = ms0.head? := by
  rcases req with ⟨p?, prov?, model?⟩
  cases p? with
  | none => rfl
  | some p =>
    by_cases hp : p = ""
    · simp [chatHandler, hp]
    · by_cases ho : strToLower (prov?.getD "groq") = "openai"
      · cases hcfg : env.openaiConfigured with
        | false => rw [chatHandler_reject_openai env ms0 p prov? model? hp ho hcfg]
        | true =>
          rw [chatHandler_openai_turn env ms0 p prov? model? hp ho hcfg]
          exact runTurn_head _ _ _ _ _ h
      · by_cases hg : strToLower (prov?.getD "groq") = "groq"
        · cases hcfg : env.groqConfigured with
          | false => rw [chatHandler_reject_groq env ms0 p prov? model? hp hg hcfg]
          | true =>
            rw [chatHandler_groq_turn env ms0 p prov? model? hp hg hcfg]
            exact runTurn_head _ _ _ _ _ h
        · rw [chatHandler_reject_unknown env ms0 p prov? model? hp ho hg]

theorem chatHandler_flags (env : Env) (ms0 : List Msg) (req : ChatRequest) :
    completionFlags (chatHandler env ms0 req).2.2 = [] ∨
    completionFlags (chatHandler env ms0 req).2.2 = [true] ∨
    completionFlags (chatHandler env ms0 req).2.2 = [true, false] := by
  rcases req with ⟨p?, prov?, model?⟩
  cases p? with
  | none => left; rfl
  | some p =>
    by_cases hp : p = ""
    · left; simp [chatHandler, hp, completionFlags]
    · by_cases ho : strToLower (prov?.getD "groq") = "openai"
      · cases hcfg : env.openaiConfigured with
        | false =>
          left
          rw [chatHandler_reject_openai env ms0 p prov? model? hp ho hcfg]
          rfl
        | true =>
          rw [chatHandler_openai_turn env ms0 p prov? model? hp ho hcfg]
          rcases runTurn_flags env ms0 p "openai" (model?.getD "gpt-4o-mini") with h | h
          · right; left; exact h
          · right; right; exact h
      · by_cases hg : strToLower (prov?.getD "groq") = "groq"
        · cases hcfg : env.groqConfigured with
          | false =>
            left
            rw [chatHandler_reject_groq env ms0 p prov? model? hp hg hcfg]
            rfl
          | true =>
            rw [chatHandler_groq_turn env ms0 p prov? model? hp hg hcfg]
            rcases runTurn_flags env ms0 p "groq" (model?.getD "llama-3.1-8b-instant") with h | h
            · right; left; exact h
            · right; right; exact h
        · left
          rw [chatHandler_reject_unknown env ms0 p prov? model? hp ho hg]
          rfl

theorem execTools_map (env : Env) (par : String → JsonArgs)
    (ctr : String → JsonArgs → CallToolResult)
    (hparse : ∀ s, env.jsonParse s = .ok (par s))
    (hcall : ∀ n a, env.callTool n a = .ok (ctr n a)) :
    ∀ (calls : List ToolCall), (∀ c ∈ calls, c.ty = "function") →
    ∀ ms evs, execTools env calls ms evs =
      .ok (ms ++ calls.map (toolResponseMsg par ctr),
           evs ++ calls.map fun c => Event.toolInvoke c.name) := by
  intro calls
  induction calls with
  | nil => intro _ ms evs; simp [execTools]
  | cons c rest ih =>
    intro hfun ms evs
    have hcty : c.ty = "function" := hfun c (List.mem_cons_self c rest)
    have hstep : execTools env (c :: rest) ms evs =
        execTools env rest (ms ++ [toolResponseMsg par ctr c])
          (evs ++ [Event.toolInvoke c.name]) := by
      simp [execTools, hcty, hparse c.arguments, hcall c.name (par c.arguments),
        toolResponseMsg]
    rw [hstep, ih (fun d hd => hfun d (List.mem_cons_of_mem _ hd)) _ _]
    simp

theorem runTurns_head (env : Env) (ps : List String) :
    ∀ ms, ms ≠ [] → (runTurns env ms ps).head? = ms.head? := by
  induction ps with
  | nil => intro ms _; rfl
  | cons p rest ih =>
    intro ms h
    have h1 := chatHandler_head env ms { prompt := some p } h
    have h2 : (chatHandler env ms { prompt := some p }).1 ≠ [] := by
      intro hc
      rw [hc] at h1
      cases ms with
      | nil => exact h rfl
      | cons a t => simp at h1
    show (runTurns env (chatHandler env ms { prompt := some p }).1 rest).head? = ms.head?
    rw [ih _ h2, h1]

/-! ## Claim theorems -/

/-- Claim C1, counterexample: the eviction does separate a `toolCall`-bearing
assistant message from its tool-role response.  Starting from the initial
history, a turn that runs the tool call `call-1` followed by plain turns
produces a history longer than `W = 10`; the truncation at the next user
append keeps the tool-role response to `call-1` while evicting the assistant
message that requested it, so the window contains an orphaned tool message. -/
theorem C1_split_cex :
    (runTurns splitEnv initialMessages ["a", "b", "c", "d"]).length = 11 ∧
    orphanTool (runTurns splitEnv initialMessages ["a", "b", "c", "d", "e"]) = true := by
  constructor
  · decide
  · decide

/-- Claim C1, amended: the eviction is a pure recency cut with no pairing
awareness.  For every history longer than `W = 10`, the truncated window
always retains message 0 (its head is unchanged), consists of exactly
message 0 followed by the most recent 9 messages, and has length 10 — but it
may retain a tool-role message whose paired assistant message was evicted,
as the counterexample shows. -/
theorem C1_window (ms : List Msg) (h : ms.length > 10) :
    (limitHistory ms).head? = ms.head? ∧
    (limitHistory ms).drop 1 = ms.drop (ms.length - 9) ∧
    (limitHistory ms).length = 10 := by
  refine ⟨limitHistory_head ms ?_, ?_, ?_⟩
  · intro hc
    rw [hc] at h
    simp at h
  · unfold limitHistory
    rw [if_pos h]
    cases ms with
    | nil => simp at h
    | cons a t => simp
  · rw [limitHistory_length]
    simp [h]

/-- Witness for the amended claim C1 at a concrete 11-message history. -/
theorem C1_window_witness :
    (limitHistory (List.replicate 11 (userMsg "x"))).head? =
      (List.replicate 11 (userMsg "x")).head? ∧
    (limitHistory (List.replicate 11 (userMsg "x"))).drop 1 =
      (List.replicate 11 (userMsg "x")).drop
        ((List.replicate 11 (userMsg "x")).length - 9) ∧
    (limitHistory (List.replicate 11 (userMsg "x"))).length = 10 :=
  C1_window (List.replicate 11 (userMsg "x")) (by decide)

/-- Claim C2, counterexample: an append can make the history exceed
`W = 10` without any eviction.  Five plain turns from the initial history
leave 11 messages: the assistant append of the fifth turn raised the length
from 10 to 11 and nothing was dropped, because the handler truncates only
when appending the user message. -/
theorem C2_overflow_cex :
    (runTurns plainEnv initialMessages ["a", "b", "c", "d", "e"]).length = 11 := by
  decide

/-- Claim C2, amended: truncation happens only on the user-message append
(other appends can leave the history above `W`), but the system-message part
of the claim holds: the first message is never evicted by any operation —
every `/chat` turn preserves the head of a nonempty history, and any run of
turns from the initial history still starts with the system message. -/
theorem C2_system_anchor :
    (∀ (env : Env) (ms0 : List Msg) (req : ChatRequest), ms0 ≠ [] →
      ((chatHandler env ms0 req).1).head? = ms0.head?) ∧
    (∀ (env : Env) (ps : List String),
      (runTurns env initialMessages ps).head? =
        some { role := "system"
               content :=
                 some "You are a helpful assistant. You can use tools to manage users." }) := by
  constructor
  · exact fun env ms0 req h => chatHandler_head env ms0 req h
  · intro env ps
    rw [runTurns_head env ps initialMessages (by simp [initialMessages])]
    rfl

/-- Witness for the amended claim C2 at a concrete request. -/
theorem C2_system_anchor_witness :
    ((chatHandler plainEnv initialMessages { prompt := some "hi" }).1).head? =
      initialMessages.head? :=
  C2_system_anchor.1 plainEnv initialMessages { prompt := some "hi" }
    (by simp [initialMessages])

/-- Claim C8: the Tool Catalog Adapter is a pure deterministic function of
the descriptor set — applying it twice to the same set yields identical
output, it produces exactly one function-spec per descriptor, each spec
preserves the descriptor name and description verbatim, passes the argument
schema through unmodified, and is tagged `type = "function"`. -/
theorem C8_adapter (ts : List ToolDescriptor) :
    toProviderSchema ts = toProviderSchema ts ∧
    (toProviderSchema ts).length = ts.length ∧
    (toProviderSchema ts).map (fun s => s.function.name) = ts.map (fun t => t.name) ∧
    (toProviderSchema ts).map (fun s => s.function.description) =
      ts.map (fun t => t.description) ∧
    (toProviderSchema ts).map (fun s => s.function.parameters) =
      ts.map (fun t => t.inputSchema) ∧
    (toProviderSchema ts).all (fun s => s.ty == "function") = true := by
  refine ⟨rfl, ?_, ?_, ?_, ?_, ?_⟩
  · simp [toProviderSchema]
  · simp [toProviderSchema]
  · simp [toProviderSchema]
  · simp [toProviderSchema]
  · simp [toProviderSchema, List.all_eq_true]

/-- Claim C10: the tool loop silently skips every tool call whose `type` is
not `"function"`: running the loop equals running it on only the
function-typed calls, and on a list with no function-typed call it
dispatches nothing and appends nothing. -/
theorem C10_skip :
    (∀ (env : Env) (calls : List ToolCall) (ms : List Msg) (evs : List Event),
      execTools env calls ms evs =
        execTools env (calls.filter fun c => c.ty == "function") ms evs) ∧
    (∀ (env : Env) (calls : List ToolCall) (ms : List Msg) (evs : List Event),
      (∀ c ∈ calls, c.ty ≠ "function") →
      execTools env calls ms evs = .ok (ms, evs)) := by
  constructor
  · exact fun env calls ms evs => execTools_filter_eq env calls ms evs
  · intro env calls ms evs h
    rw [execTools_filter_eq env calls ms evs]
    have hnil : calls.filter (fun c => c.ty == "function") = [] := by
      rw [List.filter_eq_nil_iff]
      intro c hc
      simpa using h c hc
    rw [hnil]
    rfl

/-- Witness for claim C10 at a concrete non-function-typed call. -/
theorem C10_skip_witness :
    execTools plainEnv [customCall] [] [] = .ok ([], []) :=
  C10_skip.2 plainEnv [customCall] [] [] (by decide)

/-- Claim C3, counterexample: an assistant turn containing one tool call
need not append one tool-role message.  When the single requested call's
`type` is not `"function"`, the loop skips it: the turn appends zero
tool-role messages (yet still issues the follow-up completion), so
"N tool calls give exactly N tool-role messages" fails at N = 1. -/
theorem C3_count_cex :
    (assistantCustom.tool_calls.getD []).length = 1 ∧
    countToolMsgs (chatHandler skipEnv initialMessages { prompt := some "hi" }).1 = 0 ∧
    completionFlags (chatHandler skipEnv initialMessages { prompt := some "hi" }).2.2 =
      [true, false] := by
  refine ⟨by decide, by decide, by decide⟩

/-- Claim C3, amended: for every user turn whose assistant turn contains N
`function`-typed tool calls, and whose argument parsing and tool invocations
succeed, exactly N tool-role messages are appended — one per call, with
`tool_call_id` equal to that call's id, in the order the calls were
received — all before the follow-up completion request is issued (the trace
lists every dispatch between the first and the second completion request). -/
theorem C3_tool_messages (env : Env) (ms0 : List Msg) (prompt : String)
    (model? : Option String) (amsg fm : Msg) (calls : List ToolCall)
    (par : String → JsonArgs) (ctr : String → JsonArgs → CallToolResult)
    (hg : env.groqConfigured = true) (hne : prompt ≠ "")
    (hfirst : ∀ b : CompletionBody, b.tools.isSome = true →
      env.complete "groq" b = .ok amsg)
    (hcalls : amsg.tool_calls = some calls)
    (hfun : ∀ c ∈ calls, c.ty = "function")
    (hparse : ∀ s, env.jsonParse s = .ok (par s))
    (hcall : ∀ n a, env.callTool n a = .ok (ctr n a))
    (hfollow : ∀ b : CompletionBody, b.tools = none →
      env.complete "groq" b = .ok fm) :
    chatHandler env ms0 { prompt := some prompt, provider := none, model := model? } =
      (limitHistory (ms0 ++ [userMsg prompt]) ++
         amsg :: (calls.map (toolResponseMsg par ctr) ++ [fm]),
       .ok fm.content "groq" (model?.getD "llama-3.1-8b-instant"),
       .completionReq true ::
         ((calls.map fun c => Event.toolInvoke c.name) ++ [.completionReq false])) ∧
    (calls.map (toolResponseMsg par ctr)).length = calls.length ∧
    (calls.map (toolResponseMsg par ctr)).map (fun m => m.tool_call_id) =
      calls.map (fun c => some c.id) ∧
    ∀ m ∈ calls.map (toolResponseMsg par ctr), m.role = "tool" := by
  refine ⟨?_, by simp, by simp [toolResponseMsg], ?_⟩
  · rw [chatHandler_default_turn env ms0 prompt model? hne hg]
    have hb1 := hfirst
      { model := model?.getD "llama-3.1-8b-instant"
        messages := limitHistory (ms0 ++ [userMsg prompt])
        tools := some (toProviderSchema env.catalog) } rfl
    have hx := execTools_map env par ctr hparse hcall calls hfun
      (limitHistory (ms0 ++ [userMsg prompt]) ++ [amsg]) [Event.completionReq true]
    have hb2 := hfollow
      { model := model?.getD "llama-3.1-8b-instant"
        messages := limitHistory (ms0 ++ [userMsg prompt]) ++
          amsg :: calls.map (toolResponseMsg par ctr) } rfl
    simp [runTurn, hb1, hcalls, hx, hb2]
  · intro m hm
    simp only [List.mem_map] at hm
    obtain ⟨c, _, hc⟩ := hm
    rw [← hc]
    rfl

/-- Witness for the amended claim C3 at a concrete one-call turn. -/
theorem C3_tool_messages_witness :
    chatHandler toolTurnEnv initialMessages
        { prompt := some "hi", provider := none, model := none } =
      (limitHistory (initialMessages ++ [userMsg "hi"]) ++
         assistantWithCall ::
           ([toolCallOne].map (toolResponseMsg (fun s => ⟨s⟩)
              (fun _ _ => { content := [{ ty := "text", text := "[]" }] })) ++
            [plainAssistant]),
       .ok plainAssistant.content "groq" ((none : Option String).getD "llama-3.1-8b-instant"),
       .completionReq true ::
         (([toolCallOne].map fun c => Event.toolInvoke c.name) ++
          [.completionReq false])) ∧
    ([toolCallOne].map (toolResponseMsg (fun s => ⟨s⟩)
        (fun _ _ => { content := [{ ty := "text", text := "[]" }] }))).length =
      [toolCallOne].length ∧
    ([toolCallOne].map (toolResponseMsg (fun s => ⟨s⟩)
        (fun _ _ => { content := [{ ty := "text", text := "[]" }] }))).map
        (fun m => m.tool_call_id) =
      [toolCallOne].map (fun c => some c.id) := by
  obtain ⟨h1, h2, h3, _⟩ :=
    C3_tool_messages toolTurnEnv initialMessages "hi" none assistantWithCall plainAssistant
      [toolCallOne] (fun s => ⟨s⟩) (fun _ _ => { content := [{ ty := "text", text := "[]" }] })
      rfl (by decide)
      (fun b hb => by simp [toolTurnEnv, plainEnv, hb])
      rfl (by decide)
      (fun s => rfl) (fun n a => rfl)
      (fun b hb => by simp [toolTurnEnv, plainEnv, hb])
  exact ⟨h1, h2, h3⟩

/-- Claim C6: a chat request naming an unknown provider, or a configured-off
provider, is rejected with a configuration-error (400) response before any
completion request or tool dispatch happens (the event trace is empty), and
the conversation history is returned unchanged — in particular no user
message is appended. -/
theorem C6_provider_reject (env : Env) (ms0 : List Msg) (prompt : String)
    (prov? model? : Option String) (hne : prompt ≠ "") :
    (strToLower (prov?.getD "groq") ≠ "openai" →
     strToLower (prov?.getD "groq") ≠ "groq" →
      chatHandler env ms0 { prompt := some prompt, provider := prov?, model := model? } =
        (ms0, .badRequest ("Unsupported provider: " ++ prov?.getD "groq"), [])) ∧
    (strToLower (prov?.getD "groq") = "openai" → env.openaiConfigured = false →
      chatHandler env ms0 { prompt := some prompt, provider := prov?, model := model? } =
        (ms0, .badRequest "OpenAI not configured (missing API key)", [])) ∧
    (strToLower (prov?.getD "groq") = "groq" → env.groqConfigured = false →
      chatHandler env ms0 { prompt := some prompt, provider := prov?, model := model? } =
        (ms0, .badRequest "Groq not configured (missing API key)", [])) :=
  ⟨fun h1 h2 => chatHandler_reject_unknown env ms0 prompt prov? model? hne h1 h2,
   fun h1 h2 => chatHandler_reject_openai env ms0 prompt prov? model? hne h1 h2,
   fun h1 h2 => chatHandler_reject_groq env ms0 prompt prov? model? hne h1 h2⟩

/-- Witness for claim C6: the concrete rejections for `provider = "unknown"`
and for unconfigured OpenAI. -/
theorem C6_provider_reject_witness :
    chatHandler plainEnv initialMessages
        { prompt := some "hi", provider := some "unknown", model := none } =
      (initialMessages, .badRequest ("Unsupported provider: " ++
        (some "unknown" : Option String).getD "groq"), []) ∧
    chatHandler plainEnv initialMessages
        { prompt := some "hi", provider := some "OpenAI", model := none } =
      (initialMessages, .badRequest "OpenAI not configured (missing API key)", []) :=
  ⟨(C6_provider_reject plainEnv initialMessages "hi" (some "unknown") none
      (by decide)).1 (by decide) (by decide),
   (C6_provider_reject plainEnv initialMessages "hi" (some "OpenAI") none
      (by decide)).2.1 (by decide) rfl⟩

/-- Claim C7, counterexample: history length does not grow by exactly 2 per
tool-free turn.  After five plain turns the history holds 11 messages; the
sixth plain turn triggers the user-append truncation and ends again at 11
messages, a growth of 0. -/
theorem C7_growth_cex :
    (runTurns plainEnv initialMessages ["a", "b", "c", "d", "e"]).length = 11 ∧
    (runTurns plainEnv initialMessages ["a", "b", "c", "d", "e", "f"]).length = 11 := by
  refine ⟨by decide, by decide⟩

/-- Claim C7, amended: for a user turn in which the assistant requests no
tool calls, the returned answer is exactly the assistant content of the
turn's single completion response (the trace holds one completion request),
and the history grows by exactly 2 (user + assistant) whenever the pre-turn
history has at most 9 messages; beyond that the user-append truncation caps
the window and the post-turn length is 11. -/
theorem C7_plain_turn (env : Env) (ms0 : List Msg) (prompt : String)
    (model? : Option String) (amsg : Msg)
    (hg : env.groqConfigured = true) (hne : prompt ≠ "")
    (hfirst : ∀ b : CompletionBody, b.tools.isSome = true →
      env.complete "groq" b = .ok amsg)
    (hnone : amsg.tool_calls = none) :
    (chatHandler env ms0 { prompt := some prompt, provider := none, model := model? }).2.1 =
      .ok amsg.content "groq" (model?.getD "llama-3.1-8b-instant") ∧
    (chatHandler env ms0 { prompt := some prompt, provider := none, model := model? }).2.2 =
      [.completionReq true] ∧
    (chatHandler env ms0 { prompt := some prompt, provider := none, model := model? }).1.length =
      if ms0.length + 1 > 10 then 11 else ms0.length + 2 := by
  rw [chatHandler_default_turn env ms0 prompt model? hne hg,
      runTurn_plain env ms0 prompt "groq" (model?.getD "llama-3.1-8b-instant") amsg hfirst hnone]
  refine ⟨rfl, rfl, ?_⟩
  simp only [List.length_append, limitHistory_length, List.length_cons, List.length_nil]
  split_ifs with h <;> omega

/-- Witness for the amended claim C7 at a concrete plain turn. -/
theorem C7_plain_turn_witness :
    (chatHandler plainEnv initialMessages
        { prompt := some "hi", provider := none, model := none }).2.1 =
      .ok plainAssistant.content "groq" ((none : Option String).getD "llama-3.1-8b-instant") ∧
    (chatHandler plainEnv initialMessages
        { prompt := some "hi", provider := none, model := none }).2.2 =
      [.completionReq true] ∧
    (chatHandler plainEnv initialMessages
        { prompt := some "hi", provider := none, model := none }).1.length =
      if initialMessages.length + 1 > 10 then 11 else initialMessages.length + 2 :=
  C7_plain_turn plainEnv initialMessages "hi" none plainAssistant rfl (by decide)
    (fun b _ => rfl) rfl

/-- Claim C4: every `/chat` run issues at most two completion requests —
the possible completion-request traces are none, one with tool schemas, or
one with schemas followed by one without; and on the tool path the follow-up
request is the last event (so any tool calls the follow-up response requests
are never executed) and its content is returned verbatim, possibly null. -/
theorem C4_two_completions :
    (∀ (env : Env) (ms0 : List Msg) (req : ChatRequest),
      completionFlags (chatHandler env ms0 req).2.2 = [] ∨
      completionFlags (chatHandler env ms0 req).2.2 = [true] ∨
      completionFlags (chatHandler env ms0 req).2.2 = [true, false]) ∧
    (∀ (env : Env) (ms0 : List Msg) (prompt prov model : String) (amsg fm : Msg)
       (calls : List ToolCall),
      (∀ b : CompletionBody, b.tools.isSome = true → env.complete prov b = .ok amsg) →
      amsg.tool_calls = some calls →
      (∀ s, ∃ a, env.jsonParse s = .ok a) →
      (∀ n a, ∃ r, env.callTool n a = .ok r) →
      (∀ b : CompletionBody, b.tools = none → env.complete prov b = .ok fm) →
      (runTurn env ms0 prompt prov model).2.1 = .ok fm.content prov model ∧
      (runTurn env ms0 prompt prov model).2.2 =
        .completionReq true ::
          (((calls.filter fun c => c.ty == "function").map
              fun c => Event.toolInvoke c.name) ++ [.completionReq false])) := by
  constructor
  · exact fun env ms0 req => chatHandler_flags env ms0 req
  · intro env ms0 prompt prov model amsg fm calls hfirst hcalls hparse hcall hfollow
    obtain ⟨tms, h1, _, _⟩ := runTurn_spec env ms0 prompt prov model amsg fm calls
      hfirst hcalls hparse hcall hfollow
    rw [h1]
    exact ⟨rfl, rfl⟩

/-- Witness for claim C4: a follow-up completion that itself requests a tool
call and carries null content — the trace still ends at the second
completion request and the null content is returned verbatim. -/
theorem C4_two_completions_witness :
    (runTurn followupEnv initialMessages "hi" "groq" "llama-3.1-8b-instant").2.1 =
      .ok finalWithCalls.content "groq" "llama-3.1-8b-instant" ∧
    (runTurn followupEnv initialMessages "hi" "groq" "llama-3.1-8b-instant").2.2 =
      .completionReq true ::
        ((([toolCallOne].filter fun c => c.ty == "function").map
            fun c => Event.toolInvoke c.name) ++ [.completionReq false]) :=
  C4_two_completions.2 followupEnv initialMessages "hi" "groq" "llama-3.1-8b-instant"
    assistantWithCall finalWithCalls [toolCallOne]
    (fun b hb => by simp [followupEnv, plainEnv, hb]) rfl
    (fun s => ⟨⟨s⟩, rfl⟩) (fun n a => ⟨_, rfl⟩)
    (fun b hb => by simp [followupEnv, plainEnv, hb])

/-- Claim C5: a tool whose remote call throws returns an in-band
`{isError := true}` result with a diagnostic text instead of raising (the
`get-users` catch handler), and the orchestration loop folds such a result
into history as a tool-role message and proceeds to the follow-up completion
without aborting the turn. -/
theorem C5_tool_error_inband :
    (∀ (e : AxiosError) (args : GetUsersArgs),
      getUsers (.error e) args =
        { content := [{ ty := "text", text := getUsersDiagnostic e }]
          isError := true }) ∧
    (∀ (env : Env) (ms0 : List Msg) (prompt prov model : String) (amsg fm : Msg)
       (c : ToolCall) (r : CallToolResult),
      (∀ b : CompletionBody, b.tools.isSome = true → env.complete prov b = .ok amsg) →
      amsg.tool_calls = some [c] → c.ty = "function" →
      (∀ s, ∃ a, env.jsonParse s = .ok a) →
      (∀ n a, env.callTool n a = .ok r) →
      (∀ b : CompletionBody, b.tools = none → env.complete prov b = .ok fm) →
      runTurn env ms0 prompt prov model =
        (limitHistory (ms0 ++ [userMsg prompt]) ++
           [amsg,
            { role := "tool", content := some (stringifyContent r.content)
              tool_call_id := some c.id },
            fm],
         .ok fm.content prov model,
         [.completionReq true, .toolInvoke c.name, .completionReq false])) := by
  constructor
  · intro e args
    rfl
  · intro env ms0 prompt prov model amsg fm c r hfirst hcalls hcty hparse hct hfollow
    have hb1 := hfirst
      { model := model, messages := limitHistory (ms0 ++ [userMsg prompt])
        tools := some (toProviderSchema env.catalog) } rfl
    obtain ⟨args, hp⟩ := hparse c.arguments
    have hstep : execTools env [c]
        (limitHistory (ms0 ++ [userMsg prompt]) ++ [amsg]) [Event.completionReq true] =
        .ok (limitHistory (ms0 ++ [userMsg prompt]) ++
              [amsg,
               { role := "tool", content := some (stringifyContent r.content)
                 tool_call_id := some c.id }],
             [Event.completionReq true, Event.toolInvoke c.name]) := by
      simp [execTools, hcty, hp, hct]
    have hb2 := hfollow
      { model := model
        messages := limitHistory (ms0 ++ [userMsg prompt]) ++
          [amsg,
           { role := "tool", content := some (stringifyContent r.content)
             tool_call_id := some c.id }] } rfl
    simp [runTurn, hb1, hcalls, hstep, hb2]

/-- Witness for claim C5: the concrete `get-users` failure diagnostic and a
turn over an environment whose tool answers with that `isError` result. -/
theorem C5_tool_error_inband_witness :
    getUsers (.error { message := "boom" }) {} =
      { content := [{ ty := "text", text := getUsersDiagnostic { message := "boom" } }]
        isError := true } ∧
    errResult.isError = true ∧
    runTurn errorToolEnv initialMessages "hi" "groq" "m" =
      (limitHistory (initialMessages ++ [userMsg "hi"]) ++
         [assistantWithCall,
          { role := "tool", content := some (stringifyContent errResult.content)
            tool_call_id := some toolCallOne.id },
          plainAssistant],
       .ok plainAssistant.content "groq" "m",
       [.completionReq true, .toolInvoke toolCallOne.name, .completionReq false]) :=
  ⟨C5_tool_error_inband.1 { message := "boom" } {}, rfl,
   C5_tool_error_inband.2 errorToolEnv initialMessages "hi" "groq" "m"
     assistantWithCall plainAssistant toolCallOne errResult
     (fun b hb => by simp [errorToolEnv, toolTurnEnv, plainEnv, hb]) rfl rfl
     (fun s => ⟨⟨s⟩, rfl⟩) (fun n a => rfl)
     (fun b hb => by simp [errorToolEnv, toolTurnEnv, plainEnv, hb])⟩

/-- Claim C9: a thrown completion request or tool execution aborts the turn
with a turn-level 500 error carrying the exception message, and the history
appended before the exception is kept — the user message (and, for a tool
failure, the assistant message) remains; nothing is rolled back. -/
theorem C9_error_surfaced (env : Env) (ms0 : List Msg) (prompt : String)
    (model? : Option String) (e : String)
    (hg : env.groqConfigured = true) (hne : prompt ≠ "") :
    ((∀ b : CompletionBody, b.tools.isSome = true → env.complete "groq" b = .error e) →
      chatHandler env ms0 { prompt := some prompt, provider := none, model := model? } =
        (limitHistory (ms0 ++ [userMsg prompt]), .serverError e, [.completionReq true])) ∧
    (∀ (amsg : Msg) (c : ToolCall) (rest : List ToolCall),
      (∀ b : CompletionBody, b.tools.isSome = true → env.complete "groq" b = .ok amsg) →
      amsg.tool_calls = some (c :: rest) → c.ty = "function" →
      (∀ s, ∃ a, env.jsonParse s = .ok a) →
      (∀ n a, env.callTool n a = .error e) →
      chatHandler env ms0 { prompt := some prompt, provider := none, model := model? } =
        (limitHistory (ms0 ++ [userMsg prompt]) ++ [amsg], .serverError e,
         [.completionReq true, .toolInvoke c.name])) := by
  constructor
  · intro hfail
    rw [chatHandler_default_turn env ms0 prompt model? hne hg]
    exact runTurn_completeFail env ms0 prompt "groq"
      (model?.getD "llama-3.1-8b-instant") e hfail
  · intro amsg c rest hfirst hcalls hcty hparse hfail
    rw [chatHandler_default_turn env ms0 prompt model? hne hg]
    exact runTurn_toolFail env ms0 prompt "groq"
      (model?.getD "llama-3.1-8b-instant") e amsg c rest hfirst hcalls hcty hparse hfail

/-- Witness for claim C9: concrete completion-transport and tool-transport
failures. -/
theorem C9_error_surfaced_witness :
    chatHandler failCompleteEnv initialMessages
        { prompt := some "hi", provider := none, model := none } =
      (limitHistory (initialMessages ++ [userMsg "hi"]), .serverError "llm down",
       [.completionReq true]) ∧
    chatHandler failToolEnv initialMessages
        { prompt := some "hi", provider := none, model := none } =
      (limitHistory (initialMessages ++ [userMsg "hi"]) ++ [assistantWithCall],
       .serverError "mcp down", [.completionReq true, .toolInvoke toolCallOne.name]) :=
  ⟨(C9_error_surfaced failCompleteEnv initialMessages "hi" none "llm down" rfl
      (by decide)).1 (fun b _ => rfl),
   (C9_error_surfaced failToolEnv initialMessages "hi" none "mcp down" rfl
      (by decide)).2 assistantWithCall toolCallOne []
      (fun b hb => by simp [failToolEnv, toolTurnEnv, plainEnv, hb]) rfl rfl
      (fun s => ⟨⟨s⟩, rfl⟩) (fun n a => rfl)⟩

end Compass
